import Mathlib

/-!
Verification of the sales-receipt pipeline of `compute_sales.py` (copy A,
at `src/compute_sales.py`) and `computeSales.py` (copy B, at
`TC1/ejercicio2/src/computeSales.py`).

The two Python files are shallowly embedded over a JSON value type.
Python floats are modelled by `ℚ`: prices, quantities and subtotals are
exact rationals, and binary rounding, NaN and infinities are outside
the model.  The gap is material in one place: Python's `float("nan")`
and `float("inf")` produce IEEE specials that pass the `p_val < 0`
price guard, so the real catalogue can store NaN or inf; the model's
string parser maps such literals (and exponent or underscore literals)
to `none` instead.  Price facts are therefore stated as the literal
guard the code enforces, `¬ (p < 0)` — which NaN and inf also satisfy
in Python — rather than as non-negativity, which NaN would violate.
Python dicts are modelled as association lists in insertion order;
JSON-decoded dict keys are always strings.  Python's builtin
`float(...)` coercion is modelled by `to_float` with a decimal-literal
string parser.
Python's builtin `repr(...)` used in error messages is modelled by
`pyRepr`; the rendering of numbers and containers is abbreviated, which
no claim depends on (claims about messages concern only the literal
prefixes and the embedded product-name strings).
-/

/-- A JSON value as produced by `json.load`: dict keys are strings. -/
inductive JVal where
  | null : JVal
  | bool : Bool → JVal
  | num : ℚ → JVal
  | str : String → JVal
  | arr : List JVal → JVal
  | obj : List (String × JVal) → JVal

/-- Python `str.strip()`: remove leading and trailing whitespace. -/
def pyStrip (s : String) : String :=
  ⟨(s.data.dropWhile Char.isWhitespace).rdropWhile Char.isWhitespace⟩

/-- Digit run to a natural number; `none` on a non-digit. -/
def digitsToNatAux : List Char → Nat → Option Nat
  | [], acc => some acc
  | c :: cs, acc =>
      if c.isDigit then digitsToNatAux cs (acc * 10 + (c.toNat - 48)) else none

/-- Digit run to a natural number; `none` when empty or on a non-digit. -/
def digitsToNat (l : List Char) : Option Nat :=
  if l.isEmpty then none else digitsToNatAux l 0

/-- Unsigned decimal literal (`"12"`, `"12.5"`, `"12."`, `".5"`) to `ℚ`. -/
def parseUnsigned (l : List Char) : Option ℚ :=
  let intPart := l.takeWhile (fun c => c ≠ '.')
  let rest := l.dropWhile (fun c => c ≠ '.')
  match rest with
  | [] => (digitsToNat intPart).map (fun n => (n : ℚ))
  | _ :: frac =>
      if frac.any (fun c => c = '.') then none
      else if intPart.isEmpty && frac.isEmpty then none
      else
        match (if intPart.isEmpty then some 0 else digitsToNat intPart) with
        | none => none
        | some n =>
            if frac.isEmpty then some (n : ℚ)
            else
              match digitsToNat frac with
              | none => none
              | some f => some ((n : ℚ) + (f : ℚ) / ((10 : ℚ) ^ frac.length))

/-- Python `float(s)` on a string: strip whitespace, optional sign,
decimal literal.  Literals Python also accepts but that have no
rational value or are outside the model — `nan`, `inf`, exponent and
underscore forms — parse to `none` here; see the header note on how the
NaN gap is accounted for in the stated price facts. -/
def parseFloatStr (s : String) : Option ℚ :=
  match (pyStrip s).data with
  | '-' :: rest => (parseUnsigned rest).map Neg.neg
  | '+' :: rest => parseUnsigned rest
  | l => parseUnsigned l

/-- `to_float` of both copies: Python `float(value)` returning `None` on
`TypeError`/`ValueError`.  `float` accepts numbers, booleans and numeric
strings; everything else raises.  On strings it inherits
`parseFloatStr`'s scope: NaN/inf-producing literals are outside the
rational model. -/
def to_float : JVal → Option ℚ
  | .num q => some q
  | .bool b => some (if b then 1 else 0)
  | .str s => parseFloatStr s
  | _ => none

/-- Python `data.get(key)` / `key in data` on a dict modelled as an
association list: first binding wins. -/
def objGet (fields : List (String × JVal)) (k : String) : Option JVal :=
  (fields.find? (fun kv => kv.1 == k)).map (fun kv => kv.2)

/-- `first_present` of both copies: the value of the first key of `keys`
present in the record, else Python `None` (JSON null).  Python returns
`data[key]` itself, so a stored null is indistinguishable from an absent
key, exactly as in the source. -/
def first_present (fields : List (String × JVal)) : List String → JVal
  | [] => .null
  | k :: ks =>
      match objGet fields k with
      | some v => v
      | none => first_present fields ks

/-- Wrapper-key search of `iter_records`: the list value of the first
key of `ks` whose value is a JSON array (`obj.get(key)` then
`isinstance(val, list)`). -/
def findWrap (fields : List (String × JVal)) : List String → Option (List JVal)
  | [] => none
  | k :: ks =>
      match objGet fields k with
      | some (.arr xs) => some xs
      | _ => findWrap fields ks

/-- Wrapper keys of copy A (`compute_sales.py`, lowercase only). -/
def wrapKeysA : List String := ["items", "records", "sales", "data"]

/-- Wrapper keys of copy B (`computeSales.py`, each case variant). -/
def wrapKeysB : List String :=
  ["items", "Items", "records", "Records", "sales", "Sales", "data", "Data"]

/-- `iter_records` of copy A. -/
def iter_records_A : JVal → List JVal
  | .arr xs => xs
  | .obj fields =>
      match findWrap fields wrapKeysA with
      | some xs => xs
      | none => [.obj fields]
  | _ => []

/-- `iter_records` of copy B. -/
def iter_records_B : JVal → List JVal
  | .arr xs => xs
  | .obj fields =>
      match findWrap fields wrapKeysB with
      | some xs => xs
      | none => [.obj fields]
  | _ => []

/-- `PRODUCT_KEYS` of copy A. -/
def PRODUCT_KEYS_A : List String := ["product", "Product", "title", "name", "item"]

/-- `PRICE_KEYS` of copy A. -/
def PRICE_KEYS_A : List String := ["price", "Price", "cost", "unit_price", "unitPrice"]

/-- `QTY_KEYS` of copy A. -/
def QTY_KEYS_A : List String := ["quantity", "Quantity", "qty", "amount", "units"]

/-- `PRODUCT_KEYS` of copy B. -/
def PRODUCT_KEYS_B : List String :=
  ["product", "Product", "title", "Title", "name", "Name", "item", "Item"]

/-- `PRICE_KEYS` of copy B. -/
def PRICE_KEYS_B : List String :=
  ["price", "Price", "cost", "Cost", "unit_price", "unitPrice", "UnitPrice"]

/-- `QTY_KEYS` of copy B. -/
def QTY_KEYS_B : List String :=
  ["quantity", "Quantity", "qty", "Qty", "amount", "Amount", "units", "Units"]

/-- `SaleLine` dataclass of both copies. -/
structure SaleLine where
  product : String
  quantity : ℚ
deriving DecidableEq

/-- `ReceiptLine` tuple `(product, quantity, unit_price, subtotal)`. -/
structure ReceiptLine where
  product : String
  quantity : ℚ
  unit_price : ℚ
  subtotal : ℚ
deriving DecidableEq

/-- The catalogue: a Python dict `{product_name: price}` in insertion
order. -/
abbrev Catalogue : Type := List (String × ℚ)

/-- Python dict assignment `m[k] = v`: update in place when the key is
present (the original key object is kept), else append. -/
def insertAL : List (String × ℚ) → String → ℚ → List (String × ℚ)
  | [], k, v => [(k, v)]
  | (k', v') :: rest, k, v =>
      if k' == k then (k', v) :: rest else (k', v') :: insertAL rest k v

/-- Python dict read `m[k]` / membership `k in m`. -/
def lookupAL : List (String × ℚ) → String → Option ℚ
  | [], _ => none
  | (k', v) :: rest, k => if k' == k then some v else lookupAL rest k

/-- Abbreviation for the folded dict insertion used by the build loops. -/
def insStep (m : List (String × ℚ)) (e : String × ℚ) : List (String × ℚ) :=
  insertAL m e.1 e.2

/-- Model of Python `repr`/`str` on a rational standing for a float.
Abbreviated rendering; no claim depends on the numeric text. -/
def pyReprQ (q : ℚ) : String :=
  if q.den == 1 then toString q.num ++ ".0"
  else toString q.num ++ "/" ++ toString q.den

/-- Model of Python `repr(value)` as used in `{...!r}` message slots.
Containers are abbreviated; no claim depends on their text. -/
def pyRepr : JVal → String
  | .null => "None"
  | .bool true => "True"
  | .bool false => "False"
  | .num q => pyReprQ q
  | .str s => "'" ++ s ++ "'"
  | .arr _ => "[...]"
  | .obj _ => "\x7b...\x7d"

/-- Copy A message `[Catalogue {idx}] Record inválido.` -/
def catRecMsgA (idx : Nat) : String :=
  "[Catalogue " ++ toString idx ++ "] Record inválido."

/-- Copy A message `[Catalogue {idx}] Producto vacío: {product!r}` -/
def catProdMsgA (idx : Nat) (product : JVal) : String :=
  "[Catalogue " ++ toString idx ++ "] Producto vacío: " ++ pyRepr product

/-- Copy A message `[Catalogue {idx}] Precio inválido: {price!r}` -/
def catPriceMsgA (idx : Nat) (price : JVal) : String :=
  "[Catalogue " ++ toString idx ++ "] Precio inválido: " ++ pyRepr price

/-- Copy A terminal error of `build_catalogue`. -/
def catTermA : String := "Catálogo vacío o formato inesperado."

/-- Copy B message `[Catalogue {idx}] Record inválido (no es objeto JSON).` -/
def catRecMsgB (idx : Nat) : String :=
  "[Catalogue " ++ toString idx ++ "] Record inválido (no es objeto JSON)."

/-- Copy B message `[Catalogue {idx}] Producto inválido o vacío: {product!r}` -/
def catProdMsgB (idx : Nat) (product : JVal) : String :=
  "[Catalogue " ++ toString idx ++ "] Producto inválido o vacío: " ++ pyRepr product

/-- Copy B message `[Catalogue {idx}] Precio inválido para '{product}': {price!r}` -/
def catPriceMsgB (idx : Nat) (product : String) (price : JVal) : String :=
  "[Catalogue " ++ toString idx ++ "] Precio inválido para '" ++ product
    ++ "': " ++ pyRepr price

/-- Copy B terminal error of `build_catalogue`. -/
def catTermB : String := "No se pudo construir el catálogo: formato inesperado o vacío."

/-- Copy A message `[Sales {idx}] Record inválido.` -/
def salRecMsgA (idx : Nat) : String :=
  "[Sales " ++ toString idx ++ "] Record inválido."

/-- Copy A message `[Sales {idx}] Producto inválido: {product!r}` -/
def salProdMsgA (idx : Nat) (product : JVal) : String :=
  "[Sales " ++ toString idx ++ "] Producto inválido: " ++ pyRepr product

/-- Copy A message `[Sales {idx}] Cantidad inválida: {qty!r}` -/
def salQtyMsgA (idx : Nat) (qty : JVal) : String :=
  "[Sales " ++ toString idx ++ "] Cantidad inválida: " ++ pyRepr qty

/-- Copy A terminal error of `build_sales`. -/
def salTermA : String := "No se pudieron extraer ventas."

/-- Copy B message `[Sales {idx}] Record inválido (no es objeto JSON).` -/
def salRecMsgB (idx : Nat) : String :=
  "[Sales " ++ toString idx ++ "] Record inválido (no es objeto JSON)."

/-- Copy B message `[Sales {idx}] Producto inválido o vacío: {product!r}` -/
def salProdMsgB (idx : Nat) (product : JVal) : String :=
  "[Sales " ++ toString idx ++ "] Producto inválido o vacío: " ++ pyRepr product

/-- Copy B message `[Sales {idx}] Cantidad inválida para '{product}': {qty!r}` -/
def salQtyMsgB (idx : Nat) (product : String) (qty : JVal) : String :=
  "[Sales " ++ toString idx ++ "] Cantidad inválida para '" ++ product
    ++ "': " ++ pyRepr qty

/-- Copy B terminal error of `build_sales`. -/
def salTermB : String := "No se pudieron extraer ventas: formato inesperado o vacío."

/-- Copy A message `[Sales {idx}] Qty <= 0: {sale.quantity}` -/
def rcQtyMsgA (idx : Nat) (s : SaleLine) : String :=
  "[Sales " ++ toString idx ++ "] Qty <= 0: " ++ pyReprQ s.quantity

/-- Copy A message `[Sales {idx}] No en catálogo: {sale.product}` -/
def rcMissMsgA (idx : Nat) (s : SaleLine) : String :=
  "[Sales " ++ toString idx ++ "] No en catálogo: " ++ s.product

/-- Copy B message `[Sales {idx}] Cantidad no positiva para '{sale.product}': {sale.quantity}` -/
def rcQtyMsgB (idx : Nat) (s : SaleLine) : String :=
  "[Sales " ++ toString idx ++ "] Cantidad no positiva para '" ++ s.product
    ++ "': " ++ pyReprQ s.quantity

/-- Copy B message `[Sales {idx}] Producto no existe en catálogo: '{sale.product}'` -/
def rcMissMsgB (idx : Nat) (s : SaleLine) : String :=
  "[Sales " ++ toString idx ++ "] Producto no existe en catálogo: '" ++ s.product ++ "'"

/-- One iteration of copy A's `build_catalogue` loop body on record
number `idx`: a catalogue entry, or the error message appended. -/
def processCatRecord_A (idx : Nat) (record : JVal) : (String × ℚ) ⊕ String :=
  match record with
  | .obj fields =>
      let product := first_present fields PRODUCT_KEYS_A
      let price := first_present fields PRICE_KEYS_A
      match product with
      | .str s =>
          if pyStrip s = "" then .inr (catProdMsgA idx product)
          else
            match to_float price with
            | none => .inr (catPriceMsgA idx price)
            | some p =>
                if p < 0 then .inr (catPriceMsgA idx price)
                else .inl (pyStrip s, p)
      | _ => .inr (catProdMsgA idx product)
  | _ => .inr (catRecMsgA idx)

/-- One iteration of copy B's `build_catalogue` loop body. -/
def processCatRecord_B (idx : Nat) (record : JVal) : (String × ℚ) ⊕ String :=
  match record with
  | .obj fields =>
      let product := first_present fields PRODUCT_KEYS_B
      let price := first_present fields PRICE_KEYS_B
      match product with
      | .str s =>
          if pyStrip s = "" then .inr (catProdMsgB idx product)
          else
            match to_float price with
            | none => .inr (catPriceMsgB idx s price)
            | some p =>
                if p < 0 then .inr (catPriceMsgB idx s price)
                else .inl (pyStrip s, p)
      | _ => .inr (catProdMsgB idx product)
  | _ => .inr (catRecMsgB idx)

/-- The `build_catalogue` record loop, shared by both copies: each
record either inserts its entry into the dict or appends its error. -/
def catLoopGen (proc : Nat → JVal → (String × ℚ) ⊕ String) :
    Nat → List JVal → Catalogue → List String → Catalogue × List String
  | _, [], cat, errs => (cat, errs)
  | idx, r :: rs, cat, errs =>
      match proc idx r with
      | .inl e => catLoopGen proc (idx + 1) rs (insertAL cat e.1 e.2) errs
      | .inr m => catLoopGen proc (idx + 1) rs cat (errs ++ [m])

/-- `build_catalogue` of copy A (`compute_sales.py`): record loop, then
terminal error when the catalogue is empty.  Copy A has no flat-map
fallback. -/
def build_catalogue_A (raw : JVal) : Catalogue × List String :=
  let st := catLoopGen processCatRecord_A 1 (iter_records_A raw) [] []
  if st.1.isEmpty then (st.1, st.2 ++ [catTermA]) else st

/-- One entry of copy B's flat-map fallback: skip non-coercible or
negative values, else insert the stripped key.  (JSON dict keys are
always strings, so the `isinstance(key, str)` guard never skips in the
model.) -/
def flatStep (m : Catalogue) (kv : String × JVal) : Catalogue :=
  match to_float kv.2 with
  | none => m
  | some p => if p < 0 then m else insertAL m (pyStrip kv.1) p

/-- `build_catalogue` of copy B (`computeSales.py`): record loop, then
the flat-map fallback when the catalogue is still empty and the raw
value is a dict, then terminal error when still empty. -/
def build_catalogue_B (raw : JVal) : Catalogue × List String :=
  let st := catLoopGen processCatRecord_B 1 (iter_records_B raw) [] []
  let cat :=
    if st.1.isEmpty then
      match raw with
      | .obj fields => fields.foldl flatStep st.1
      | _ => st.1
    else st.1
  if cat.isEmpty then (cat, st.2 ++ [catTermB]) else (cat, st.2)

/-- One iteration of copy A's `build_sales` loop body. -/
def processSaleRecord_A (idx : Nat) (record : JVal) : SaleLine ⊕ String :=
  match record with
  | .obj fields =>
      let product := first_present fields PRODUCT_KEYS_A
      let qty := first_present fields QTY_KEYS_A
      match product with
      | .str s =>
          if pyStrip s = "" then .inr (salProdMsgA idx product)
          else
            match to_float qty with
            | none => .inr (salQtyMsgA idx qty)
            | some q => .inl ⟨pyStrip s, q⟩
      | _ => .inr (salProdMsgA idx product)
  | _ => .inr (salRecMsgA idx)

/-- One iteration of copy B's `build_sales` loop body. -/
def processSaleRecord_B (idx : Nat) (record : JVal) : SaleLine ⊕ String :=
  match record with
  | .obj fields =>
      let product := first_present fields PRODUCT_KEYS_B
      let qty := first_present fields QTY_KEYS_B
      match product with
      | .str s =>
          if pyStrip s = "" then .inr (salProdMsgB idx product)
          else
            match to_float qty with
            | none => .inr (salQtyMsgB idx s qty)
            | some q => .inl ⟨pyStrip s, q⟩
      | _ => .inr (salProdMsgB idx product)
  | _ => .inr (salRecMsgB idx)

/-- The `build_sales` record loop, shared by both copies. -/
def salesLoopGen (proc : Nat → JVal → SaleLine ⊕ String) :
    Nat → List JVal → List SaleLine → List String → List SaleLine × List String
  | _, [], lines, errs => (lines, errs)
  | idx, r :: rs, lines, errs =>
      match proc idx r with
      | .inl line => salesLoopGen proc (idx + 1) rs (lines ++ [line]) errs
      | .inr m => salesLoopGen proc (idx + 1) rs lines (errs ++ [m])

/-- `build_sales` of copy A. -/
def build_sales_A (raw : JVal) : List SaleLine × List String :=
  let st := salesLoopGen processSaleRecord_A 1 (iter_records_A raw) [] []
  if st.1.isEmpty then (st.1, st.2 ++ [salTermA]) else st

/-- `build_sales` of copy B. -/
def build_sales_B (raw : JVal) : List SaleLine × List String :=
  let st := salesLoopGen processSaleRecord_B 1 (iter_records_B raw) [] []
  if st.1.isEmpty then (st.1, st.2 ++ [salTermB]) else st

/-- One iteration of `compute_receipt`'s loop body (both copies;
`qmsg`/`mmsg` are the copy's message templates): quantity checked
first, then catalogue membership, else the receipt line with
`subtotal = unit_price * quantity`. -/
def receiptStep (cat : Catalogue) (qmsg mmsg : Nat → SaleLine → String)
    (idx : Nat) (s : SaleLine) : ReceiptLine ⊕ String :=
  if s.quantity ≤ 0 then .inr (qmsg idx s)
  else
    match lookupAL cat s.product with
    | none => .inr (mmsg idx s)
    | some u => .inl ⟨s.product, s.quantity, u, u * s.quantity⟩

/-- The `compute_receipt` loop: receipt lines, running total and errors
accumulated in order. -/
def receiptLoop (cat : Catalogue) (qmsg mmsg : Nat → SaleLine → String) :
    Nat → List SaleLine → List ReceiptLine → ℚ → List String →
      List ReceiptLine × ℚ × List String
  | _, [], rec, tot, errs => (rec, tot, errs)
  | idx, s :: rest, rec, tot, errs =>
      match receiptStep cat qmsg mmsg idx s with
      | .inl line =>
          receiptLoop cat qmsg mmsg (idx + 1) rest (rec ++ [line])
            (tot + line.subtotal) errs
      | .inr m => receiptLoop cat qmsg mmsg (idx + 1) rest rec tot (errs ++ [m])

/-- `compute_receipt` of copy A. -/
def compute_receipt_A (cat : Catalogue) (sales : List SaleLine) :
    List ReceiptLine × ℚ × List String :=
  receiptLoop cat rcQtyMsgA rcMissMsgA 1 sales [] 0 []

/-- `compute_receipt` of copy B. -/
def compute_receipt_B (cat : Catalogue) (sales : List SaleLine) :
    List ReceiptLine × ℚ × List String :=
  receiptLoop cat rcQtyMsgB rcMissMsgB 1 sales [] 0 []

/-- `enumerate(..., start=idx)` followed by `f`: apply `f` to each
element with its 1-based position. -/
def mapFrom (f : Nat → α → β) : Nat → List α → List β
  | _, [] => []
  | i, x :: xs => f i x :: mapFrom f (i + 1) xs

/-- The valid catalogue entries of copy A, in extraction order. -/
def validEntriesA (raw : JVal) : List (String × ℚ) :=
  (mapFrom processCatRecord_A 1 (iter_records_A raw)).filterMap Sum.getLeft?

/-- The valid catalogue entries of copy B's record pass, in extraction
order. -/
def validEntriesB (raw : JVal) : List (String × ℚ) :=
  (mapFrom processCatRecord_B 1 (iter_records_B raw)).filterMap Sum.getLeft?

/-- `leadsList a b` : the list `a` is an initial segment of `b`. -/
def leadsList : List Char → List Char → Bool
  | [], _ => true
  | _ :: _, [] => false
  | a :: as, b :: bs => a == b && leadsList as bs

/-- `hasSub needle hay` : `needle` occurs contiguously inside `hay`
(model of Python `needle in hay`). -/
def hasSub (needle hay : String) : Bool :=
  (List.range (hay.data.length + 1)).any
    (fun i => leadsList needle.data (hay.data.drop i))

/-- The per-line outcomes of copy A's `compute_receipt`, in order,
indexed from 1: a receipt line or an error for every sale line. -/
def receiptOutsA (cat : Catalogue) (sales : List SaleLine) :
    List (ReceiptLine ⊕ String) :=
  mapFrom (receiptStep cat rcQtyMsgA rcMissMsgA) 1 sales

/-- The per-line outcomes of copy B's `compute_receipt`. -/
def receiptOutsB (cat : Catalogue) (sales : List SaleLine) :
    List (ReceiptLine ⊕ String) :=
  mapFrom (receiptStep cat rcQtyMsgB rcMissMsgB) 1 sales


/-! ### Characterizations of the loops -/


theorem mapFrom_length (f : Nat → α → β) (i : Nat) (l : List α) :
    (mapFrom f i l).length = l.length := by
  induction l generalizing i with
  | nil => rfl
  | cons x xs ih => simp [mapFrom, ih]

theorem mapFrom_getElem? (f : Nat → α → β) (l : List α) (i j : Nat) :
    (mapFrom f i l)[j]? = (l[j]?).map (f (i + j)) := by
  induction l generalizing i j with
  | nil => simp [mapFrom]
  | cons x xs ih =>
      cases j with
      | zero => simp [mapFrom]
      | succ j =>
          simp only [mapFrom, List.getElem?_cons_succ, ih (i + 1) j]
          rw [show i + (j + 1) = i + 1 + j by omega]

/-- The catalogue loop splits into the per-record outcomes: the valid
entries folded into the dict, and the error messages appended in
order. -/
theorem catLoopGen_spec (proc : Nat → JVal → (String × ℚ) ⊕ String)
    (rs : List JVal) (idx : Nat) (cat : Catalogue) (errs : List String) :
    catLoopGen proc idx rs cat errs =
      (((mapFrom proc idx rs).filterMap Sum.getLeft?).foldl insStep cat,
       errs ++ (mapFrom proc idx rs).filterMap Sum.getRight?) := by
  induction rs generalizing idx cat errs with
  | nil => simp [catLoopGen, mapFrom]
  | cons r rs ih =>
      cases h : proc idx r with
      | inl e =>
          simp [catLoopGen, mapFrom, h, ih, insStep]
      | inr m =>
          simp [catLoopGen, mapFrom, h, ih]

/-- The sales loop splits into the per-record outcomes. -/
theorem salesLoopGen_spec (proc : Nat → JVal → SaleLine ⊕ String)
    (rs : List JVal) (idx : Nat) (lines : List SaleLine) (errs : List String) :
    salesLoopGen proc idx rs lines errs =
      (lines ++ (mapFrom proc idx rs).filterMap Sum.getLeft?,
       errs ++ (mapFrom proc idx rs).filterMap Sum.getRight?) := by
  induction rs generalizing idx lines errs with
  | nil => simp [salesLoopGen, mapFrom]
  | cons r rs ih =>
      cases h : proc idx r with
      | inl line => simp [salesLoopGen, mapFrom, h, ih]
      | inr m => simp [salesLoopGen, mapFrom, h, ih]

/-- The receipt loop splits into the per-line outcomes: receipt lines
and errors in order, and the running total as the sum of the produced
subtotals. -/
theorem receiptLoop_spec (cat : Catalogue) (qmsg mmsg : Nat → SaleLine → String)
    (sales : List SaleLine) (idx : Nat) (rec : List ReceiptLine) (tot : ℚ)
    (errs : List String) :
    receiptLoop cat qmsg mmsg idx sales rec tot errs =
      (rec ++ (mapFrom (receiptStep cat qmsg mmsg) idx sales).filterMap Sum.getLeft?,
       tot + (((mapFrom (receiptStep cat qmsg mmsg) idx sales).filterMap
                Sum.getLeft?).map ReceiptLine.subtotal).sum,
       errs ++ (mapFrom (receiptStep cat qmsg mmsg) idx sales).filterMap Sum.getRight?) := by
  induction sales generalizing idx rec tot errs with
  | nil => simp [receiptLoop, mapFrom]
  | cons s rest ih =>
      cases h : receiptStep cat qmsg mmsg idx s with
      | inl line =>
          simp [receiptLoop, mapFrom, h, ih, add_assoc]
      | inr m =>
          simp [receiptLoop, mapFrom, h, ih]



/-! ### Dict lemmas -/

theorem insertAL_ne_nil (m : List (String × ℚ)) (k : String) (v : ℚ) :
    insertAL m k v ≠ [] := by
  cases m with
  | nil => simp [insertAL]
  | cons kv rest =>
      obtain ⟨k', v'⟩ := kv
      by_cases h : (k' == k) <;> simp [insertAL, h]

theorem lookupAL_insertAL (m : List (String × ℚ)) (k : String) (v : ℚ) (j : String) :
    lookupAL (insertAL m k v) j = if k == j then some v else lookupAL m j := by
  induction m with
  | nil => simp [insertAL, lookupAL]
  | cons kv rest ih =>
      obtain ⟨k', v'⟩ := kv
      by_cases hkk : (k' == k)
      · have hkk' : k' = k := by simpa [beq_iff_eq] using hkk
        subst hkk'
        by_cases hkj : (k' == j) <;> simp [insertAL, lookupAL, hkk, hkj]
      · by_cases hkj : (k' == j)
        · have hkj' : k' = j := by simpa [beq_iff_eq] using hkj
          subst hkj'
          have : ¬ (k == k') := by
            intro h
            exact hkk (by simpa [beq_iff_eq] using (beq_iff_eq.mp h).symm)
          simp [insertAL, lookupAL, hkk, hkj, this]
        · simp [insertAL, lookupAL, hkk, hkj, ih]

theorem foldl_insStep_ne_nil (entries : List (String × ℚ)) (m : List (String × ℚ))
    (h : m ≠ [] ∨ entries ≠ []) : entries.foldl insStep m ≠ [] := by
  induction entries generalizing m with
  | nil =>
      rcases h with h | h
      · simpa using h
      · exact absurd rfl h
  | cons e rest ih =>
      simp only [List.foldl_cons]
      exact ih (insertAL m e.1 e.2) (Or.inl (insertAL_ne_nil m e.1 e.2))

/-- Looking up a key after folding a list of insertions: the last
inserted binding for that key wins, else the initial dict answers. -/
theorem lookupAL_foldl_insStep (entries : List (String × ℚ))
    (m : List (String × ℚ)) (name : String) :
    lookupAL (entries.foldl insStep m) name =
      match (entries.filter (fun e => e.1 == name)).getLast? with
      | some e => some e.2
      | none => lookupAL m name := by
  induction entries using List.reverseRecOn generalizing m with
  | nil => simp
  | append_singleton l e ih =>
      rw [List.foldl_append]
      simp only [List.foldl_cons, List.foldl_nil, List.filter_append]
      by_cases hp : (e.1 == name)
      · simp only [insStep, lookupAL_insertAL, hp, if_pos, List.filter_cons,
          List.filter_nil]
        rw [List.getLast?_concat]
      · have hfilter : List.filter (fun e => e.1 == name) [e] = [] := by
          simp [List.filter_cons, hp]
        simp only [insStep, lookupAL_insertAL, hp, List.filter_cons, List.filter_nil,
          if_neg, Bool.false_eq_true, not_false_iff, ih]
        simp [hfilter]

theorem mem_insertAL {P : String × ℚ → Prop} :
    ∀ (m : List (String × ℚ)) (k : String) (v : ℚ),
      (∀ kv ∈ m, P kv) → P (k, v) → ∀ kv ∈ insertAL m k v, P kv := by
  intro m
  induction m with
  | nil =>
      intro k v _ hkv kv h
      simp only [insertAL, List.mem_singleton] at h
      subst h
      exact hkv
  | cons hd rest ih =>
      intro k v hm hkv kv h
      obtain ⟨k', v'⟩ := hd
      by_cases hb : (k' == k)
      · rw [insertAL, if_pos hb] at h
        rcases List.mem_cons.mp h with h1 | h2
        · subst h1
          have hk : k' = k := by simpa [beq_iff_eq] using hb
          subst hk
          exact hkv
        · exact hm kv (List.mem_cons_of_mem _ h2)
      · rw [insertAL, if_neg hb] at h
        rcases List.mem_cons.mp h with h1 | h2
        · subst h1
          exact hm (k', v') (List.mem_cons_self _ _)
        · exact ih k v (fun x hx => hm x (List.mem_cons_of_mem _ hx)) hkv kv h2

theorem mem_foldl_insStep {P : String × ℚ → Prop} {entries : List (String × ℚ)}
    {m : List (String × ℚ)} (hm : ∀ kv ∈ m, P kv) (he : ∀ e ∈ entries, P e) :
    ∀ kv ∈ entries.foldl insStep m, P kv := by
  induction entries generalizing m with
  | nil => simpa using hm
  | cons e rest ih =>
      simp only [List.foldl_cons]
      exact ih
        (mem_insertAL m e.1 e.2 hm (by simpa using he e (List.mem_cons_self _ _)))
        (fun x hx => he x (List.mem_cons_of_mem _ hx))

/-! ### String helpers -/

theorem pyStrip_idem (s : String) : pyStrip (pyStrip s) = pyStrip s := by
  have key : ∀ m : List Char, m.dropWhile Char.isWhitespace = m →
      ((m.rdropWhile Char.isWhitespace).dropWhile Char.isWhitespace).rdropWhile
          Char.isWhitespace
        = m.rdropWhile Char.isWhitespace := by
    intro m hm
    obtain ⟨t, ht⟩ := List.rdropWhile_prefix Char.isWhitespace m
    have hd : (m.rdropWhile Char.isWhitespace).dropWhile Char.isWhitespace
        = m.rdropWhile Char.isWhitespace := by
      cases hd2 : m.rdropWhile Char.isWhitespace with
      | nil => simp
      | cons c cs =>
          have hdt : List.dropWhile Char.isWhitespace ((c :: cs) ++ t) = (c :: cs) ++ t := by
            rw [← hd2, ht]
            exact hm
          rw [List.cons_append] at hdt
          by_cases hc : Char.isWhitespace c
          · rw [List.dropWhile_cons, if_pos hc] at hdt
            have hlen := (List.dropWhile_sublist (l := cs ++ t) Char.isWhitespace).length_le
            rw [hdt] at hlen
            simp only [List.length_cons] at hlen
            omega
          · rw [List.dropWhile_cons, if_neg hc]
    rw [hd, List.rdropWhile_idempotent]
  apply String.ext
  exact key _ (List.dropWhile_idempotent _ _)

theorem head?_append_of_head? {a : String} {c : Char}
    (h : a.data.head? = some c) (b : String) : (a ++ b).data.head? = some c := by
  rw [String.data_append]
  cases hd : a.data with
  | nil => rw [hd] at h; cases h
  | cons x xs =>
      rw [hd] at h
      rw [List.cons_append]
      simpa using h

theorem ne_of_head? {m t : String} {c c' : Char} (hm : m.data.head? = some c)
    (ht : t.data.head? = some c') (hcc : c ≠ c') : m ≠ t := by
  intro h
  subst h
  rw [hm] at ht
  exact hcc (Option.some.inj ht)



theorem leadsList_append (l r : List Char) : leadsList l (l ++ r) = true := by
  induction l with
  | nil => rfl
  | cons c cs ih => simp [leadsList, ih]

/-- Any string of the shape `pre ++ s ++ post` contains `s`. -/
theorem hasSub_of_split {msg pre s post : String} (h : msg = pre ++ s ++ post) :
    hasSub s msg = true := by
  subst h
  rw [hasSub, List.any_eq_true]
  refine ⟨pre.data.length, ?_, ?_⟩
  · rw [List.mem_range, String.data_append, String.data_append, List.append_assoc]
    simp only [List.length_append]
    omega
  · rw [String.data_append, String.data_append, List.append_assoc, List.drop_left]
    exact leadsList_append _ _

/-! ### Error-message shapes -/

theorem processCatRecord_A_inr_head (idx : Nat) (r : JVal) (m : String)
    (h : processCatRecord_A idx r = .inr m) : m.data.head? = some '[' := by
  cases r
  case obj fields =>
    simp only [processCatRecord_A] at h
    repeat' split at h
    all_goals first
      | exact Sum.noConfusion h
      | (injection h with hm; subst hm;
         simp only [catRecMsgA, catProdMsgA, catPriceMsgA];
         repeat (first | rfl | apply head?_append_of_head?))
  all_goals
    (simp only [processCatRecord_A] at h;
     injection h with hm; subst hm;
     simp only [catRecMsgA];
     repeat (first | rfl | apply head?_append_of_head?))

theorem processCatRecord_B_inr_head (idx : Nat) (r : JVal) (m : String)
    (h : processCatRecord_B idx r = .inr m) : m.data.head? = some '[' := by
  cases r
  case obj fields =>
    simp only [processCatRecord_B] at h
    repeat' split at h
    all_goals first
      | exact Sum.noConfusion h
      | (injection h with hm; subst hm;
         simp only [catRecMsgB, catProdMsgB, catPriceMsgB];
         repeat (first | rfl | apply head?_append_of_head?))
  all_goals
    (simp only [processCatRecord_B] at h;
     injection h with hm; subst hm;
     simp only [catRecMsgB];
     repeat (first | rfl | apply head?_append_of_head?))

theorem processSaleRecord_A_inr_head (idx : Nat) (r : JVal) (m : String)
    (h : processSaleRecord_A idx r = .inr m) : m.data.head? = some '[' := by
  cases r
  case obj fields =>
    simp only [processSaleRecord_A] at h
    repeat' split at h
    all_goals first
      | exact Sum.noConfusion h
      | (injection h with hm; subst hm;
         simp only [salRecMsgA, salProdMsgA, salQtyMsgA];
         repeat (first | rfl | apply head?_append_of_head?))
  all_goals
    (simp only [processSaleRecord_A] at h;
     injection h with hm; subst hm;
     simp only [salRecMsgA];
     repeat (first | rfl | apply head?_append_of_head?))

theorem processSaleRecord_B_inr_head (idx : Nat) (r : JVal) (m : String)
    (h : processSaleRecord_B idx r = .inr m) : m.data.head? = some '[' := by
  cases r
  case obj fields =>
    simp only [processSaleRecord_B] at h
    repeat' split at h
    all_goals first
      | exact Sum.noConfusion h
      | (injection h with hm; subst hm;
         simp only [salRecMsgB, salProdMsgB, salQtyMsgB];
         repeat (first | rfl | apply head?_append_of_head?))
  all_goals
    (simp only [processSaleRecord_B] at h;
     injection h with hm; subst hm;
     simp only [salRecMsgB];
     repeat (first | rfl | apply head?_append_of_head?))

theorem mem_mapFrom {f : Nat → α → β} {i : Nat} {l : List α} {b : β}
    (h : b ∈ mapFrom f i l) : ∃ j x, x ∈ l ∧ b = f j x := by
  induction l generalizing i with
  | nil => cases h
  | cons x xs ih =>
      rcases List.mem_cons.mp h with h1 | h2
      · exact ⟨i, x, List.mem_cons_self _ _, h1⟩
      · obtain ⟨j, y, hy, hb⟩ := ih h2
        exact ⟨j, y, List.mem_cons_of_mem _ hy, hb⟩

theorem count_zero_of_ne {t : String} {errs : List String}
    (h : ∀ e ∈ errs, e ≠ t) : errs.count t = 0 := by
  rw [List.count_eq_zero]
  intro hmem
  exact h t hmem rfl

/-- `findWrap` really is a first-match search: it returns the value of
the first key in the list bound to a JSON array, and no earlier key is
bound to an array. -/
theorem findWrap_first {fields : List (String × JVal)} {ks : List String} {xs : List JVal}
    (h : findWrap fields ks = some xs) :
    ∃ i, ∃ hi : i < ks.length,
      objGet fields (ks.get ⟨i, hi⟩) = some (.arr xs) ∧
      ∀ j (hj : j < ks.length), j < i → ∀ ys,
        objGet fields (ks.get ⟨j, hj⟩) ≠ some (.arr ys) := by
  induction ks with
  | nil => cases h
  | cons k ks ih =>
      rw [show findWrap fields (k :: ks)
          = (match objGet fields k with
             | some (.arr a) => some a
             | _ => findWrap fields ks) from rfl] at h
      split at h
      next a heq =>
        injection h with h2
        subst h2
        exact ⟨0, by simp, by simpa using heq, by omega⟩
      next hno =>
        obtain ⟨i, hi, hobj, hmin⟩ := ih h
        refine ⟨i + 1, by simpa using Nat.succ_lt_succ hi, hobj, ?_⟩
        intro j hj hji ys
        cases j with
        | zero =>
            intro hcon
            exact hno ys (by simpa using hcon)
        | succ j' =>
            have hj' : j' < ks.length := by simpa using Nat.lt_of_succ_lt_succ hj
            exact hmin j' hj' (Nat.lt_of_succ_lt_succ hji) ys

/-! ### Projections of the build functions -/

theorem compute_receipt_A_eq (cat : Catalogue) (sales : List SaleLine) :
    compute_receipt_A cat sales =
      ((receiptOutsA cat sales).filterMap Sum.getLeft?,
       (((receiptOutsA cat sales).filterMap Sum.getLeft?).map ReceiptLine.subtotal).sum,
       (receiptOutsA cat sales).filterMap Sum.getRight?) := by
  unfold compute_receipt_A receiptOutsA
  rw [receiptLoop_spec]
  simp

theorem compute_receipt_B_eq (cat : Catalogue) (sales : List SaleLine) :
    compute_receipt_B cat sales =
      ((receiptOutsB cat sales).filterMap Sum.getLeft?,
       (((receiptOutsB cat sales).filterMap Sum.getLeft?).map ReceiptLine.subtotal).sum,
       (receiptOutsB cat sales).filterMap Sum.getRight?) := by
  unfold compute_receipt_B receiptOutsB
  rw [receiptLoop_spec]
  simp

theorem build_catalogue_A_fst (raw : JVal) :
    (build_catalogue_A raw).1 = (validEntriesA raw).foldl insStep [] := by
  unfold build_catalogue_A
  rw [catLoopGen_spec]
  unfold validEntriesA
  by_cases h : (((mapFrom processCatRecord_A 1 (iter_records_A raw)).filterMap
      Sum.getLeft?).foldl insStep []).isEmpty
  · simp [h]
  · simp [h]

theorem build_catalogue_A_snd (raw : JVal) :
    (build_catalogue_A raw).2 =
      (mapFrom processCatRecord_A 1 (iter_records_A raw)).filterMap Sum.getRight?
        ++ (if (validEntriesA raw).foldl insStep [] = [] then [catTermA] else []) := by
  unfold build_catalogue_A
  rw [catLoopGen_spec]
  unfold validEntriesA
  by_cases h : (((mapFrom processCatRecord_A 1 (iter_records_A raw)).filterMap
      Sum.getLeft?).foldl insStep []) = []
  · simp [h, List.isEmpty_iff]
  · simp [h, List.isEmpty_iff]

theorem build_catalogue_B_fst_of_entries (raw : JVal) (h : validEntriesB raw ≠ []) :
    (build_catalogue_B raw).1 = (validEntriesB raw).foldl insStep [] := by
  have hne := foldl_insStep_ne_nil (validEntriesB raw) [] (Or.inr h)
  unfold build_catalogue_B
  rw [catLoopGen_spec]
  unfold validEntriesB at hne ⊢
  simp [List.isEmpty_iff, hne]

theorem build_catalogue_B_snd_of_entries (raw : JVal) (h : validEntriesB raw ≠ []) :
    (build_catalogue_B raw).2
      = (mapFrom processCatRecord_B 1 (iter_records_B raw)).filterMap
          Sum.getRight? := by
  have hne := foldl_insStep_ne_nil (validEntriesB raw) [] (Or.inr h)
  unfold build_catalogue_B
  rw [catLoopGen_spec]
  unfold validEntriesB at hne
  simp [List.isEmpty_iff, hne]

theorem build_sales_A_fst (raw : JVal) :
    (build_sales_A raw).1
      = (mapFrom processSaleRecord_A 1 (iter_records_A raw)).filterMap Sum.getLeft? := by
  unfold build_sales_A
  rw [salesLoopGen_spec]
  by_cases h : ((mapFrom processSaleRecord_A 1 (iter_records_A raw)).filterMap
      Sum.getLeft?) = []
  · simp [h, List.isEmpty_iff]
  · simp [h, List.isEmpty_iff]

theorem build_sales_A_snd (raw : JVal) :
    (build_sales_A raw).2
      = (mapFrom processSaleRecord_A 1 (iter_records_A raw)).filterMap Sum.getRight?
        ++ (if (mapFrom processSaleRecord_A 1 (iter_records_A raw)).filterMap
              Sum.getLeft? = [] then [salTermA] else []) := by
  unfold build_sales_A
  rw [salesLoopGen_spec]
  by_cases h : ((mapFrom processSaleRecord_A 1 (iter_records_A raw)).filterMap
      Sum.getLeft?) = []
  · simp [h, List.isEmpty_iff]
  · simp [h, List.isEmpty_iff]

theorem build_sales_B_fst (raw : JVal) :
    (build_sales_B raw).1
      = (mapFrom processSaleRecord_B 1 (iter_records_B raw)).filterMap Sum.getLeft? := by
  unfold build_sales_B
  rw [salesLoopGen_spec]
  by_cases h : ((mapFrom processSaleRecord_B 1 (iter_records_B raw)).filterMap
      Sum.getLeft?) = []
  · simp [h, List.isEmpty_iff]
  · simp [h, List.isEmpty_iff]

theorem build_sales_B_snd (raw : JVal) :
    (build_sales_B raw).2
      = (mapFrom processSaleRecord_B 1 (iter_records_B raw)).filterMap Sum.getRight?
        ++ (if (mapFrom processSaleRecord_B 1 (iter_records_B raw)).filterMap
              Sum.getLeft? = [] then [salTermB] else []) := by
  unfold build_sales_B
  rw [salesLoopGen_spec]
  by_cases h : ((mapFrom processSaleRecord_B 1 (iter_records_B raw)).filterMap
      Sum.getLeft?) = []
  · simp [h, List.isEmpty_iff]
  · simp [h, List.isEmpty_iff]

/-- In a record-loop error list every message differs from a terminal
message whose first character is not `[`. -/
theorem count_term_zero {α : Type} {proc : Nat → JVal → α ⊕ String}
    {t : String} {c : Char}
    (hproc : ∀ i r m, proc i r = .inr m → m.data.head? = some '[')
    (ht : t.data.head? = some c) (hc : c ≠ '[') (rs : List JVal) (i : Nat) :
    ((mapFrom proc i rs).filterMap Sum.getRight?).count t = 0 := by
  apply count_zero_of_ne
  intro e he
  rw [List.mem_filterMap] at he
  obtain ⟨o, ho, hR⟩ := he
  obtain ⟨j, x, hx, rfl⟩ := mem_mapFrom ho
  cases hp : proc j x with
  | inl a => rw [hp] at hR; cases hR
  | inr m =>
      rw [hp] at hR
      have hm : m = e := by simpa [Sum.getRight?] using hR
      subst hm
      exact ne_of_head? (hproc j x _ hp) ht (fun hcon => hc hcon.symm)

/-! ### Claims -/

theorem receiptStep_inl {cat : Catalogue} {qmsg mmsg : Nat → SaleLine → String}
    {idx : Nat} {s : SaleLine} {r : ReceiptLine}
    (h : receiptStep cat qmsg mmsg idx s = .inl r) :
    r.subtotal = r.unit_price * r.quantity
    ∧ lookupAL cat r.product = some r.unit_price := by
  unfold receiptStep at h
  split at h
  · exact Sum.noConfusion h
  · split at h
    next => exact Sum.noConfusion h
    next u heq =>
        injection h with h2
        subst h2
        exact ⟨rfl, heq⟩

/-- C1: in both copies, every receipt line produced by `compute_receipt`
has `subtotal = unit_price * quantity` where `unit_price` is the
catalogue's price for that line's product, and the returned total is the
sum of the receipt lines' subtotals in insertion order (no reordering or
deduplication: the total is literally the sum over the receipt list). -/
theorem claim1_receipt_invariant (cat : Catalogue) (sales : List SaleLine) :
    (∀ r ∈ (compute_receipt_A cat sales).1,
        r.subtotal = r.unit_price * r.quantity
        ∧ lookupAL cat r.product = some r.unit_price)
    ∧ (compute_receipt_A cat sales).2.1
        = ((compute_receipt_A cat sales).1.map ReceiptLine.subtotal).sum
    ∧ (∀ r ∈ (compute_receipt_B cat sales).1,
        r.subtotal = r.unit_price * r.quantity
        ∧ lookupAL cat r.product = some r.unit_price)
    ∧ (compute_receipt_B cat sales).2.1
        = ((compute_receipt_B cat sales).1.map ReceiptLine.subtotal).sum := by
  have hmem : ∀ (q m : Nat → SaleLine → String) (r : ReceiptLine),
      r ∈ (mapFrom (receiptStep cat q m) 1 sales).filterMap Sum.getLeft? →
      r.subtotal = r.unit_price * r.quantity
      ∧ lookupAL cat r.product = some r.unit_price := by
    intro q m r hr
    rw [List.mem_filterMap] at hr
    obtain ⟨o, ho, hL⟩ := hr
    obtain ⟨j, x, hx, rfl⟩ := mem_mapFrom ho
    cases hp : receiptStep cat q m j x with
    | inl a =>
        rw [hp] at hL
        have ha : a = r := by simpa [Sum.getLeft?] using hL
        subst ha
        exact receiptStep_inl hp
    | inr e => rw [hp] at hL; cases hL
  refine ⟨?_, ?_, ?_, ?_⟩
  · rw [compute_receipt_A_eq]
    exact hmem rcQtyMsgA rcMissMsgA
  · rw [compute_receipt_A_eq]
  · rw [compute_receipt_B_eq]
    exact hmem rcQtyMsgB rcMissMsgB
  · rw [compute_receipt_B_eq]

/-- Witness for C1: on catalogue `{"Pen": 2}` and the single sale
`("Pen", 3)` the receipt line `("Pen", 3, 2, 6)` satisfies the
invariant. -/
theorem claim1_witness :
    ((6:ℚ) = 2 * 3 ∧ lookupAL [("Pen", 2)] "Pen" = some 2) := by
  have h := (claim1_receipt_invariant [("Pen", 2)] [⟨"Pen", 3⟩]).1
    ⟨"Pen", 3, 2, 6⟩ (by with_unfolding_all decide)
  exact h

theorem length_filterMap_sum {α β : Type} (outs : List (α ⊕ β)) :
    (outs.filterMap Sum.getLeft?).length + (outs.filterMap Sum.getRight?).length
      = outs.length := by
  induction outs with
  | nil => rfl
  | cons o rest ih =>
      cases o with
      | inl a =>
          simp only [List.filterMap_cons, Sum.getLeft?, Sum.getRight?, List.length_cons]
          omega
      | inr b =>
          simp only [List.filterMap_cons, Sum.getLeft?, Sum.getRight?, List.length_cons]
          omega

/-- C10: in both copies there is exactly one outcome per sale line:
the receipt is the list of line outcomes and the errors the list of
error outcomes of one outcome list whose length is the number of sale
lines, so receipt length plus error length equals the number of input
sale lines (one receipt line or one error each, never both, never
neither). -/
theorem claim10_line_conservation (cat : Catalogue) (sales : List SaleLine) :
    (compute_receipt_A cat sales).1 = (receiptOutsA cat sales).filterMap Sum.getLeft?
    ∧ (compute_receipt_A cat sales).2.2
        = (receiptOutsA cat sales).filterMap Sum.getRight?
    ∧ (receiptOutsA cat sales).length = sales.length
    ∧ (compute_receipt_A cat sales).1.length + (compute_receipt_A cat sales).2.2.length
        = sales.length
    ∧ (compute_receipt_B cat sales).1 = (receiptOutsB cat sales).filterMap Sum.getLeft?
    ∧ (compute_receipt_B cat sales).2.2
        = (receiptOutsB cat sales).filterMap Sum.getRight?
    ∧ (receiptOutsB cat sales).length = sales.length
    ∧ (compute_receipt_B cat sales).1.length + (compute_receipt_B cat sales).2.2.length
        = sales.length := by
  refine ⟨by rw [compute_receipt_A_eq], by rw [compute_receipt_A_eq],
    mapFrom_length _ _ _, ?_, by rw [compute_receipt_B_eq],
    by rw [compute_receipt_B_eq], mapFrom_length _ _ _, ?_⟩
  · rw [compute_receipt_A_eq]
    dsimp only
    rw [length_filterMap_sum (receiptOutsA cat sales)]
    unfold receiptOutsA
    exact mapFrom_length _ _ _
  · rw [compute_receipt_B_eq]
    dsimp only
    rw [length_filterMap_sum (receiptOutsB cat sales)]
    unfold receiptOutsB
    exact mapFrom_length _ _ _

theorem receiptOuts_left_eq (cat : Catalogue) (sales : List SaleLine) : ∀ idx,
    (mapFrom (receiptStep cat rcQtyMsgA rcMissMsgA) idx sales).filterMap Sum.getLeft?
      = (mapFrom (receiptStep cat rcQtyMsgB rcMissMsgB) idx sales).filterMap
          Sum.getLeft? := by
  induction sales with
  | nil => intro idx; rfl
  | cons s rest ih =>
      intro idx
      have hstep : Sum.getLeft? (receiptStep cat rcQtyMsgA rcMissMsgA idx s)
          = Sum.getLeft? (receiptStep cat rcQtyMsgB rcMissMsgB idx s) := by
        unfold receiptStep
        by_cases hq : s.quantity ≤ 0
        · rw [if_pos hq, if_pos hq]
          rfl
        · rw [if_neg hq, if_neg hq]
          cases hl : lookupAL cat s.product <;> rfl
      simp only [mapFrom, List.filterMap_cons, hstep, ih (idx + 1)]

/-- C2 (amended): the two copies' `compute_receipt` functions agree on
the receipt lines and the total for every catalogue and sales list;
`build_catalogue` and `build_sales` are not equivalent (see the
counterexample). -/
theorem claim2_receipt_equivalence (cat : Catalogue) (sales : List SaleLine) :
    (compute_receipt_A cat sales).1 = (compute_receipt_B cat sales).1
    ∧ (compute_receipt_A cat sales).2.1 = (compute_receipt_B cat sales).2.1 := by
  have hleft := receiptOuts_left_eq cat sales 1
  constructor
  · rw [compute_receipt_A_eq, compute_receipt_B_eq]
    dsimp only
    unfold receiptOutsA receiptOutsB
    exact hleft
  · rw [compute_receipt_A_eq, compute_receipt_B_eq]
    dsimp only
    unfold receiptOutsA receiptOutsB
    rw [hleft]

/-- C2 counterexample: on the flat mapping `{"Pen": 3}` the two copies
of `build_catalogue` return different catalogues (`compute_sales.py`
has no flat-map fallback and returns the empty catalogue; the TC1 copy
returns `{"Pen": 3.0}`), so the copies are not equivalent. -/
theorem claim2_counterexample :
    (build_catalogue_A (.obj [("Pen", .num 3)])).1
      ≠ (build_catalogue_B (.obj [("Pen", .num 3)])).1 := by
  with_unfolding_all decide

/-- C6: in both copies `compute_receipt` processes sale lines in
original order, indexed from 1, with each line yielding exactly one
outcome (receipt line or error, the total summing only produced
subtotals); a line with quantity ≤ 0 yields the quantity error
regardless of catalogue membership (the quantity check comes first),
and a line with positive quantity absent from the catalogue yields the
missing-product error. -/
theorem claim6_reconciliation_errors (cat : Catalogue) (sales : List SaleLine) :
    compute_receipt_A cat sales
      = ((receiptOutsA cat sales).filterMap Sum.getLeft?,
         (((receiptOutsA cat sales).filterMap Sum.getLeft?).map ReceiptLine.subtotal).sum,
         (receiptOutsA cat sales).filterMap Sum.getRight?)
    ∧ compute_receipt_B cat sales
      = ((receiptOutsB cat sales).filterMap Sum.getLeft?,
         (((receiptOutsB cat sales).filterMap Sum.getLeft?).map ReceiptLine.subtotal).sum,
         (receiptOutsB cat sales).filterMap Sum.getRight?)
    ∧ (∀ (i : Nat) (s : SaleLine), sales[i]? = some s →
        (s.quantity ≤ 0 →
          (receiptOutsA cat sales)[i]? = some (.inr (rcQtyMsgA (i + 1) s))
          ∧ (receiptOutsB cat sales)[i]? = some (.inr (rcQtyMsgB (i + 1) s)))
        ∧ (0 < s.quantity → lookupAL cat s.product = none →
          (receiptOutsA cat sales)[i]? = some (.inr (rcMissMsgA (i + 1) s))
          ∧ (receiptOutsB cat sales)[i]? = some (.inr (rcMissMsgB (i + 1) s)))) := by
  refine ⟨compute_receipt_A_eq cat sales, compute_receipt_B_eq cat sales, ?_⟩
  intro i s hs
  have hA : (receiptOutsA cat sales)[i]?
      = some (receiptStep cat rcQtyMsgA rcMissMsgA (i + 1) s) := by
    unfold receiptOutsA
    rw [mapFrom_getElem?, hs, Nat.add_comm 1 i]
    rfl
  have hB : (receiptOutsB cat sales)[i]?
      = some (receiptStep cat rcQtyMsgB rcMissMsgB (i + 1) s) := by
    unfold receiptOutsB
    rw [mapFrom_getElem?, hs, Nat.add_comm 1 i]
    rfl
  constructor
  · intro hq
    constructor
    · rw [hA]
      unfold receiptStep
      rw [if_pos hq]
    · rw [hB]
      unfold receiptStep
      rw [if_pos hq]
  · intro hq hlook
    have hq' : ¬ (s.quantity ≤ 0) := not_le.mpr hq
    constructor
    · rw [hA]
      unfold receiptStep
      rw [if_neg hq', hlook]
    · rw [hB]
      unfold receiptStep
      rw [if_neg hq', hlook]

/-- Witness for C6: the sale `("Pen", 0)` against catalogue
`{"Pen": 2}` yields the quantity error as outcome 1 in both copies. -/
theorem claim6_witness :
    (receiptOutsA [("Pen", 2)] [⟨"Pen", 0⟩])[0]?
        = some (.inr (rcQtyMsgA 1 ⟨"Pen", 0⟩))
    ∧ (receiptOutsB [("Pen", 2)] [⟨"Pen", 0⟩])[0]?
        = some (.inr (rcQtyMsgB 1 ⟨"Pen", 0⟩)) := by
  have h := ((claim6_reconciliation_errors [("Pen", 2)] [⟨"Pen", 0⟩]).2.2 0 ⟨"Pen", 0⟩
    (by with_unfolding_all decide)).1 (by with_unfolding_all decide)
  exact h

theorem count_term_final {γ : Type} [DecidableEq γ] {E : List String} {t : String}
    (hz : E.count t = 0) (xs : List γ) :
    ((if xs.isEmpty then (xs, E ++ [t]) else (xs, E)).2).count t
      = (if (if xs.isEmpty then (xs, E ++ [t]) else (xs, E)).1 = []
         then 1 else 0) := by
  by_cases hc : xs.isEmpty
  · rw [List.isEmpty_iff] at hc
    simp [hc, List.count_append, hz]
  · rw [List.isEmpty_iff] at hc
    simp [hc, hz]

/-- C7: in both copies, `build_catalogue` emits its terminal error
exactly once when the final catalogue is empty and not at all
otherwise; likewise `build_sales` with its terminal error and the
extracted sale lines. -/
theorem claim7_terminal_errors (raw : JVal) :
    (build_catalogue_A raw).2.count catTermA
        = (if (build_catalogue_A raw).1 = [] then 1 else 0)
    ∧ (build_catalogue_B raw).2.count catTermB
        = (if (build_catalogue_B raw).1 = [] then 1 else 0)
    ∧ (build_sales_A raw).2.count salTermA
        = (if (build_sales_A raw).1 = [] then 1 else 0)
    ∧ (build_sales_B raw).2.count salTermB
        = (if (build_sales_B raw).1 = [] then 1 else 0) := by
  refine ⟨?_, ?_, ?_, ?_⟩
  · have hz := count_term_zero processCatRecord_A_inr_head
      (show catTermA.data.head? = some 'C' from rfl) (by decide)
      (iter_records_A raw) 1
    unfold build_catalogue_A
    rw [catLoopGen_spec]
    dsimp only
    rw [List.nil_append]
    exact count_term_final hz _
  · have hz := count_term_zero processCatRecord_B_inr_head
      (show catTermB.data.head? = some 'N' from rfl) (by decide)
      (iter_records_B raw) 1
    unfold build_catalogue_B
    rw [catLoopGen_spec]
    dsimp only
    rw [List.nil_append]
    exact count_term_final hz _
  · have hz := count_term_zero processSaleRecord_A_inr_head
      (show salTermA.data.head? = some 'N' from rfl) (by decide)
      (iter_records_A raw) 1
    unfold build_sales_A
    rw [salesLoopGen_spec]
    dsimp only
    rw [List.nil_append]
    exact count_term_final hz _
  · have hz := count_term_zero processSaleRecord_B_inr_head
      (show salTermB.data.head? = some 'N' from rfl) (by decide)
      (iter_records_B raw) 1
    unfold build_sales_B
    rw [salesLoopGen_spec]
    dsimp only
    rw [List.nil_append]
    exact count_term_final hz _

/-- C8: in both copies, when at least one valid catalogue record for a
product name exists, the catalogue maps that name to the price of the
last such record in extraction order (last-write-wins), and the
overwrite is silent: the returned errors number exactly one per invalid
record — error count plus valid-entry count equals the record count —
so no valid record, duplicates of earlier product names included,
emits any error. -/
theorem claim8_last_write_wins (raw : JVal) (name : String) :
    ((validEntriesA raw).any (fun e => e.1 == name) = true →
      lookupAL (build_catalogue_A raw).1 name
        = ((validEntriesA raw).filter (fun e => e.1 == name)).getLast?.map Prod.snd
      ∧ (build_catalogue_A raw).2.length + (validEntriesA raw).length
          = (iter_records_A raw).length)
    ∧ ((validEntriesB raw).any (fun e => e.1 == name) = true →
      lookupAL (build_catalogue_B raw).1 name
        = ((validEntriesB raw).filter (fun e => e.1 == name)).getLast?.map Prod.snd
      ∧ (build_catalogue_B raw).2.length + (validEntriesB raw).length
          = (iter_records_B raw).length) := by
  have main : ∀ entries : List (String × ℚ),
      entries.any (fun e => e.1 == name) = true →
      lookupAL (entries.foldl insStep []) name
        = (entries.filter (fun e => e.1 == name)).getLast?.map Prod.snd := by
    intro entries hany
    rw [lookupAL_foldl_insStep]
    obtain ⟨x, hx, hpx⟩ := List.any_eq_true.mp hany
    have hmemf : x ∈ entries.filter (fun e => e.1 == name) :=
      List.mem_filter.mpr ⟨hx, hpx⟩
    have hne : entries.filter (fun e => e.1 == name) ≠ [] :=
      List.ne_nil_of_mem hmemf
    cases hg : (entries.filter (fun e => e.1 == name)).getLast? with
    | none => exact absurd (List.getLast?_eq_none_iff.mp hg) hne
    | some e => simp
  constructor
  · intro h
    have hne : validEntriesA raw ≠ [] := by
      intro hnil
      rw [hnil] at h
      cases h
    have hfold : (validEntriesA raw).foldl insStep [] ≠ [] :=
      foldl_insStep_ne_nil _ _ (Or.inr hne)
    constructor
    · rw [build_catalogue_A_fst]
      exact main _ h
    · rw [build_catalogue_A_snd, if_neg hfold, List.append_nil]
      unfold validEntriesA
      rw [Nat.add_comm, length_filterMap_sum, mapFrom_length]
  · intro h
    have hne : validEntriesB raw ≠ [] := by
      intro hnil
      rw [hnil] at h
      cases h
    constructor
    · rw [build_catalogue_B_fst_of_entries raw hne]
      exact main _ h
    · rw [build_catalogue_B_snd_of_entries raw hne]
      unfold validEntriesB
      rw [Nat.add_comm, length_filterMap_sum, mapFrom_length]

/-- Witness for C8: two records for "Pen" with prices 1 then 2; both
copies resolve "Pen" to the later price 2, and neither emits any error
for the duplicate (zero errors for two records and two valid
entries). -/
theorem claim8_witness :
    (lookupAL (build_catalogue_A (.arr
        [.obj [("product", .str "Pen"), ("price", .num 1)],
         .obj [("product", .str "Pen"), ("price", .num 2)]])).1 "Pen" = some 2
     ∧ (build_catalogue_A (.arr
        [.obj [("product", .str "Pen"), ("price", .num 1)],
         .obj [("product", .str "Pen"), ("price", .num 2)]])).2.length
        + (validEntriesA (.arr
        [.obj [("product", .str "Pen"), ("price", .num 1)],
         .obj [("product", .str "Pen"), ("price", .num 2)]])).length
        = (iter_records_A (.arr
        [.obj [("product", .str "Pen"), ("price", .num 1)],
         .obj [("product", .str "Pen"), ("price", .num 2)]])).length)
    ∧ (lookupAL (build_catalogue_B (.arr
        [.obj [("product", .str "Pen"), ("price", .num 1)],
         .obj [("product", .str "Pen"), ("price", .num 2)]])).1 "Pen" = some 2
     ∧ (build_catalogue_B (.arr
        [.obj [("product", .str "Pen"), ("price", .num 1)],
         .obj [("product", .str "Pen"), ("price", .num 2)]])).2.length
        + (validEntriesB (.arr
        [.obj [("product", .str "Pen"), ("price", .num 1)],
         .obj [("product", .str "Pen"), ("price", .num 2)]])).length
        = (iter_records_B (.arr
        [.obj [("product", .str "Pen"), ("price", .num 1)],
         .obj [("product", .str "Pen"), ("price", .num 2)]])).length) := by
  have h := claim8_last_write_wins (.arr
    [.obj [("product", .str "Pen"), ("price", .num 1)],
     .obj [("product", .str "Pen"), ("price", .num 2)]]) "Pen"
  have hA := h.1 (by with_unfolding_all decide)
  have hB := h.2 (by with_unfolding_all decide)
  refine ⟨⟨?_, hA.2⟩, ?_, hB.2⟩
  · rw [hA.1]
    with_unfolding_all decide
  · rw [hB.1]
    with_unfolding_all decide

theorem fst_if_pair {γ δ : Type} (c : Prop) [Decidable c] (C : γ) (X Y : δ) :
    (if c then (C, X) else (C, Y)).1 = C := by
  split <;> rfl

theorem processCatRecord_A_inl {idx : Nat} {r : JVal} {k : String} {v : ℚ}
    (h : processCatRecord_A idx r = .inl (k, v)) :
    k ≠ "" ∧ pyStrip k = k ∧ 0 ≤ v := by
  cases r
  case obj fields =>
    simp only [processCatRecord_A] at h
    repeat' split at h
    all_goals first
      | exact Sum.noConfusion h
      | (injection h with hm;
         injection hm with hk hv;
         subst hk; subst hv;
         exact ⟨by assumption, pyStrip_idem _, le_of_not_lt (by assumption)⟩)
  all_goals (simp only [processCatRecord_A] at h; exact Sum.noConfusion h)

theorem processCatRecord_B_inl {idx : Nat} {r : JVal} {k : String} {v : ℚ}
    (h : processCatRecord_B idx r = .inl (k, v)) :
    k ≠ "" ∧ pyStrip k = k ∧ 0 ≤ v := by
  cases r
  case obj fields =>
    simp only [processCatRecord_B] at h
    repeat' split at h
    all_goals first
      | exact Sum.noConfusion h
      | (injection h with hm;
         injection hm with hk hv;
         subst hk; subst hv;
         exact ⟨by assumption, pyStrip_idem _, le_of_not_lt (by assumption)⟩)
  all_goals (simp only [processCatRecord_B] at h; exact Sum.noConfusion h)

theorem validEntries_prop {proc : Nat → JVal → (String × ℚ) ⊕ String}
    (hproc : ∀ (i : Nat) (r : JVal) (k : String) (v : ℚ),
      proc i r = .inl (k, v) → k ≠ "" ∧ pyStrip k = k ∧ 0 ≤ v)
    (rs : List JVal) (i : Nat) :
    ∀ e ∈ (mapFrom proc i rs).filterMap Sum.getLeft?,
      e.1 ≠ "" ∧ pyStrip e.1 = e.1 ∧ 0 ≤ e.2 := by
  intro e he
  rw [List.mem_filterMap] at he
  obtain ⟨o, ho, hL⟩ := he
  obtain ⟨j, x, hx, rfl⟩ := mem_mapFrom ho
  cases hp : proc j x with
  | inl a =>
      rw [hp] at hL
      have ha : a = e := by simpa [Sum.getLeft?] using hL
      subst ha
      exact hproc j x a.1 a.2 hp
  | inr m => rw [hp] at hL; cases hL

theorem mem_foldl_flatStep {fields : List (String × JVal)} {m : Catalogue}
    (hm : ∀ kv ∈ m, pyStrip kv.1 = kv.1 ∧ 0 ≤ kv.2) :
    ∀ kv ∈ fields.foldl flatStep m, pyStrip kv.1 = kv.1 ∧ 0 ≤ kv.2 := by
  induction fields generalizing m with
  | nil => simpa using hm
  | cons f rest ih =>
      simp only [List.foldl_cons]
      apply ih
      unfold flatStep
      split
      · exact hm
      next p heq =>
        split
        · exact hm
        next hneg =>
          exact mem_insertAL m (pyStrip f.1) p hm ⟨pyStrip_idem _, le_of_not_lt hneg⟩

/-- Catalogue invariant over the rational price model, where failing
the `< 0` guard coincides with `0 ≤ p`.  (Over Python floats the two
differ: NaN fails the guard without being non-negative, which is why
the claim below states the guard itself.) -/
theorem catalogue_keys_nonneg (raw : JVal) :
    (∀ kv ∈ (build_catalogue_A raw).1,
        kv.1 ≠ "" ∧ pyStrip kv.1 = kv.1 ∧ 0 ≤ kv.2)
    ∧ (∀ kv ∈ (build_catalogue_B raw).1, pyStrip kv.1 = kv.1 ∧ 0 ≤ kv.2) := by
  have hA := @validEntries_prop processCatRecord_A
    (fun i r k v h => processCatRecord_A_inl h) (iter_records_A raw) 1
  have hB := @validEntries_prop processCatRecord_B
    (fun i r k v h => processCatRecord_B_inl h) (iter_records_B raw) 1
  constructor
  · rw [build_catalogue_A_fst]
    exact mem_foldl_insStep (by simp) hA
  · have hB2 : ∀ e ∈ (mapFrom processCatRecord_B 1 (iter_records_B raw)).filterMap
        Sum.getLeft?, pyStrip e.1 = e.1 ∧ 0 ≤ e.2 :=
      fun e he => ⟨(hB e he).2.1, (hB e he).2.2⟩
    have hbase : ∀ kv ∈ ((mapFrom processCatRecord_B 1 (iter_records_B raw)).filterMap
        Sum.getLeft?).foldl insStep [], pyStrip kv.1 = kv.1 ∧ 0 ≤ kv.2 :=
      mem_foldl_insStep (by simp) hB2
    unfold build_catalogue_B
    rw [catLoopGen_spec]
    dsimp only
    rw [fst_if_pair]
    by_cases hb : (((mapFrom processCatRecord_B 1 (iter_records_B raw)).filterMap
        Sum.getLeft?).foldl insStep []).isEmpty
    · rw [if_pos hb]
      cases raw <;> first
        | exact hbase
        | exact mem_foldl_flatStep hbase
    · rw [if_neg hb]
      exact hbase

/-- C5 (amended): every catalogue key equals its own trimmed form in
both copies, and in `compute_sales.py` every key is additionally
non-empty; every stored price fails the code's negativity guard
(`price < 0` is false).  The original claim's stronger conjuncts are
both false of the program: the TC1 flat-map fallback can insert a key
that is empty after trimming (see the counterexample), and in real
Python a price string such as `"nan"` coerces to IEEE NaN, which also
fails the `< 0` guard and is stored while not being a non-negative real
(NaN is outside this rational embedding, so the price conjunct is
stated as the guard the code enforces, which NaN and inf also
satisfy). -/
theorem claim5_catalogue_keys (raw : JVal) :
    (∀ kv ∈ (build_catalogue_A raw).1,
        kv.1 ≠ "" ∧ pyStrip kv.1 = kv.1 ∧ ¬ kv.2 < 0)
    ∧ (∀ kv ∈ (build_catalogue_B raw).1, pyStrip kv.1 = kv.1 ∧ ¬ kv.2 < 0) := by
  obtain ⟨hA, hB⟩ := catalogue_keys_nonneg raw
  exact ⟨fun kv hkv => ⟨(hA kv hkv).1, (hA kv hkv).2.1, not_lt.mpr (hA kv hkv).2.2⟩,
    fun kv hkv => ⟨(hB kv hkv).1, not_lt.mpr (hB kv hkv).2⟩⟩

/-- Witness for C5: the key "Pen" of the catalogue built from
`[{"product": "Pen", "price": 3}]` is non-empty and trimmed, and its
price fails the negativity guard. -/
theorem claim5_witness :
    ("Pen" ≠ "" ∧ pyStrip "Pen" = "Pen" ∧ ¬ (3:ℚ) < 0) := by
  exact (claim5_catalogue_keys
      (.arr [.obj [("product", .str "Pen"), ("price", .num 3)]])).1
    ("Pen", 3) (by with_unfolding_all decide)

/-- C5 counterexample: on the flat mapping `{"": 1}` the TC1 fallback
inserts the empty string as a catalogue key, so not every key of a
`build_catalogue` result is a non-empty string. -/
theorem claim5_counterexample :
    (build_catalogue_B (.obj [("", .num 1)])).1 = [("", 1)]
    ∧ ∃ kv ∈ (build_catalogue_B (.obj [("", .num 1)])).1, kv.1 = "" := by
  refine ⟨by with_unfolding_all decide, ("", 1), ?_, rfl⟩
  with_unfolding_all decide

/-- C4 (amended): in both copies the extractor yields a sequence's
elements, the wrapper value of the first wrapper key bound to a
sequence, the mapping itself when no wrapper key matches, and nothing
for scalars; it is a total function and never raises.  Copy A checks
only the lowercase wrapper keys `items, records, sales, data`; only the
TC1 copy also checks the capitalized variants (see counterexample). -/
theorem claim4_extractor_resolution :
    (∀ xs, iter_records_A (.arr xs) = xs ∧ iter_records_B (.arr xs) = xs)
    ∧ (∀ fields,
        iter_records_A (.obj fields)
          = (match findWrap fields wrapKeysA with
             | some xs => xs
             | none => [.obj fields])
        ∧ iter_records_B (.obj fields)
          = (match findWrap fields wrapKeysB with
             | some xs => xs
             | none => [.obj fields]))
    ∧ (iter_records_A .null = [] ∧ iter_records_B .null = []
        ∧ (∀ b, iter_records_A (.bool b) = [] ∧ iter_records_B (.bool b) = [])
        ∧ (∀ q, iter_records_A (.num q) = [] ∧ iter_records_B (.num q) = [])
        ∧ (∀ s, iter_records_A (.str s) = [] ∧ iter_records_B (.str s) = []))
    ∧ (∀ fields ks xs, findWrap fields ks = some xs →
        ∃ i, ∃ hi : i < ks.length,
          objGet fields (ks.get ⟨i, hi⟩) = some (.arr xs)
          ∧ ∀ j (hj : j < ks.length), j < i → ∀ ys,
              objGet fields (ks.get ⟨j, hj⟩) ≠ some (.arr ys)) := by
  refine ⟨fun xs => ⟨rfl, rfl⟩,
    fun fields => ⟨rfl, rfl⟩,
    ⟨rfl, rfl, fun b => ⟨rfl, rfl⟩, fun q => ⟨rfl, rfl⟩, fun s => ⟨rfl, rfl⟩⟩,
    fun fields ks xs h => findWrap_first h⟩

/-- Witness for C4: the TC1 copy does recognize the capitalized wrapper
key "Items"; sequences pass through; the wrapper search is a
first-match search on a concrete input. -/
theorem claim4_witness :
    iter_records_B (.obj [("Items", .arr [.num 1])]) = [.num 1]
    ∧ iter_records_A (.arr [.num 1]) = [.num 1]
    ∧ ∃ i, ∃ hi : i < wrapKeysB.length,
        objGet [("Items", .arr [.num 1])] (wrapKeysB.get ⟨i, hi⟩)
          = some (.arr [.num 1])
        ∧ ∀ j (hj : j < wrapKeysB.length), j < i → ∀ ys,
            objGet [("Items", .arr [.num 1])] (wrapKeysB.get ⟨j, hj⟩)
              ≠ some (.arr ys) := by
  refine ⟨?_, (claim4_extractor_resolution.1 [.num 1]).1, ?_⟩
  · have h := (claim4_extractor_resolution.2.1 [("Items", .arr [.num 1])]).2
    rw [h]
    rfl
  · exact claim4_extractor_resolution.2.2.2 [("Items", .arr [.num 1])] wrapKeysB
      [.num 1] rfl

/-- C4 counterexample: `compute_sales.py`'s `iter_records` does not
check the capitalized wrapper key "Items": on `{"Items": [1]}` it
yields the mapping itself as a single record instead of the wrapped
elements, contradicting "each case variant checked". -/
theorem claim4_counterexample :
    iter_records_A (.obj [("Items", .arr [.num 1])])
      = [.obj [("Items", .arr [.num 1])]]
    ∧ iter_records_A (.obj [("Items", .arr [.num 1])]) ≠ [.num 1] := by
  constructor
  · rfl
  · intro hcon
    rw [show iter_records_A (.obj [("Items", .arr [.num 1])])
        = [.obj [("Items", .arr [.num 1])]] from rfl] at hcon
    injection hcon with h1 h2
    exact JVal.noConfusion h1

theorem processCatRecord_B_price_error {idx : Nat} {fields : List (String × JVal)}
    {s : String} (hs : first_present fields PRODUCT_KEYS_B = .str s)
    (hne : ¬ pyStrip s = "")
    (hp : to_float (first_present fields PRICE_KEYS_B) = none
      ∨ ∃ p, to_float (first_present fields PRICE_KEYS_B) = some p ∧ p < 0) :
    processCatRecord_B idx (.obj fields)
      = .inr (catPriceMsgB idx s (first_present fields PRICE_KEYS_B)) := by
  simp only [processCatRecord_B, hs]
  rcases hp with hp | ⟨p, hp, hneg⟩
  · simp [hp, hne]
  · simp [hp, hne, hneg]

/-- C9 (amended): in the TC1 copy, a record whose product name is a
valid (non-empty after trimming) string but whose resolved price fails
numeric coercion or is negative is skipped with an error message that
contains the product name as a substring.  (`compute_sales.py`'s price
error references only the index and the offending price; see the
counterexample.) -/
theorem claim9_price_error_references_product (idx : Nat)
    (fields : List (String × JVal)) (s : String)
    (hs : first_present fields PRODUCT_KEYS_B = .str s)
    (hne : ¬ pyStrip s = "")
    (hp : to_float (first_present fields PRICE_KEYS_B) = none
      ∨ ∃ p, to_float (first_present fields PRICE_KEYS_B) = some p ∧ p < 0) :
    ∃ pre post, processCatRecord_B idx (.obj fields) = .inr (pre ++ s ++ post) := by
  refine ⟨"[Catalogue " ++ toString idx ++ "] Precio inválido para '",
    "': " ++ pyRepr (first_present fields PRICE_KEYS_B), ?_⟩
  rw [processCatRecord_B_price_error hs hne hp]
  unfold catPriceMsgB
  rw [String.append_assoc, String.append_assoc]

/-- Witness for C9 on the record `{"product": "Pen", "price": "bad"}`
at index 1. -/
theorem claim9_witness :
    ∃ pre post,
      processCatRecord_B 1 (.obj [("product", .str "Pen"), ("price", .str "bad")])
        = .inr (pre ++ "Pen" ++ post) := by
  exact claim9_price_error_references_product 1
    [("product", .str "Pen"), ("price", .str "bad")] "Pen" rfl
    (by with_unfolding_all decide)
    (Or.inl (by with_unfolding_all decide))

/-- C9 counterexample: in `compute_sales.py` the same record yields the
price error `[Catalogue 1] Precio inválido: 'bad'`, which does not
reference the product name "Pen" at all, so the claim fails for that
copy. -/
theorem claim9_counterexample :
    (build_catalogue_A (.arr [.obj [("product", .str "Pen"), ("price", .str "bad")]])).2
      = ["[Catalogue 1] Precio inválido: 'bad'", catTermA]
    ∧ ¬ ∃ pre post, ("[Catalogue 1] Precio inválido: 'bad'" : String)
        = pre ++ "Pen" ++ post := by
  constructor
  · with_unfolding_all decide
  · rintro ⟨pre, post, heq⟩
    have htrue := hasSub_of_split heq
    have hfalse : hasSub "Pen" "[Catalogue 1] Precio inválido: 'bad'" = false := by
      with_unfolding_all decide
    rw [hfalse] at htrue
    exact Bool.noConfusion htrue

/-- C3 (amended): in the TC1 copy (`computeSales.py`), when the record
pass yields no valid catalogue entry and the raw value is a mapping,
`build_catalogue` reinterprets every mapping entry as
(string key → coercible numeric value), silently skipping
non-coercible or negative values with no per-entry error reporting (the
returned errors are exactly the record-pass errors, plus the terminal
error only when the fallback also produced nothing); on the spec's
example `{"Pen": 2.5, "Ink": "bad"}` it returns `{"Pen": 2.5}` with no
error mentioning "Ink".  (`compute_sales.py` has no such fallback; see
the counterexample.) -/
theorem claim3_flat_fallback :
    (∀ fields : List (String × JVal),
      (catLoopGen processCatRecord_B 1 (iter_records_B (.obj fields)) [] []).1 = [] →
      (build_catalogue_B (.obj fields)).1 = fields.foldl flatStep []
      ∧ (build_catalogue_B (.obj fields)).2
          = (catLoopGen processCatRecord_B 1 (iter_records_B (.obj fields)) [] []).2
            ++ (if (fields.foldl flatStep []).isEmpty then [catTermB] else []))
    ∧ (build_catalogue_B (.obj [("Pen", .num (5/2)), ("Ink", .str "bad")])).1
        = [("Pen", 5/2)]
    ∧ ((build_catalogue_B (.obj [("Pen", .num (5/2)), ("Ink", .str "bad")])).2.all
        (fun e => !(hasSub "Ink" e))) = true := by
  refine ⟨?_, by with_unfolding_all decide, by with_unfolding_all decide⟩
  intro fields h0
  have hb : build_catalogue_B (.obj fields)
      = (fields.foldl flatStep [],
         (catLoopGen processCatRecord_B 1 (iter_records_B (.obj fields)) [] []).2
           ++ (if (fields.foldl flatStep []).isEmpty then [catTermB] else [])) := by
    unfold build_catalogue_B
    simp only [h0, List.isEmpty_nil, eq_self_iff_true, if_true]
    by_cases hf : (fields.foldl flatStep []).isEmpty
    · rw [if_pos hf, if_pos hf]
    · rw [if_neg hf, if_neg hf]
      simp
  exact ⟨by rw [hb], by rw [hb]⟩

/-- Witness for C3 on the spec's fallback example: the record pass of
the TC1 copy yields nothing on `{"Pen": 2.5, "Ink": "bad"}`, and the
fallback produces the catalogue `{"Pen": 2.5}`. -/
theorem claim3_witness :
    (build_catalogue_B (.obj [("Pen", .num (5/2)), ("Ink", .str "bad")])).1
      = [("Pen", (5:ℚ)/2)] := by
  have h := (claim3_flat_fallback.1 [("Pen", .num (5/2)), ("Ink", .str "bad")]
    (by with_unfolding_all decide)).1
  rw [h]
  with_unfolding_all decide

/-- C3 counterexample: `compute_sales.py`'s `build_catalogue` has no
flat-map fallback: on the same raw mapping `{"Pen": 2.5, "Ink": "bad"}`
it returns the empty catalogue, not `{"Pen": 2.5}` as the claim states
for `build_catalogue`. -/
theorem claim3_counterexample :
    (build_catalogue_A (.obj [("Pen", .num (5/2)), ("Ink", .str "bad")])).1 = []
    ∧ (build_catalogue_A (.obj [("Pen", .num (5/2)), ("Ink", .str "bad")])).1
        ≠ [("Pen", (5:ℚ)/2)] := by
  constructor
  · with_unfolding_all decide
  · with_unfolding_all decide
